import Mathlib

/-!
Shallow embedding of the CRM Contacts service (`src/main.py`, FastAPI + SQLite).

The `contacts` table (`init_db`) is modelled as a list of rows plus the
AUTOINCREMENT counter.  Each HTTP handler becomes a pure function from the
store (and the validated request payload) to a result together with the store
after the request; SQLite's `UNIQUE` constraint on `email`, the dynamic
`WHERE` clause of `GET /contacts` (including `LOWER` and `LIKE` semantics),
`ORDER BY`, `LIMIT`/`OFFSET`, and the FastAPI query-parameter validation are
all translated explicitly from the source.
-/

namespace Crm

/-- A row of the `contacts` table (`init_db`, src/main.py).  `id` is the
INTEGER PRIMARY KEY AUTOINCREMENT, `email` is `TEXT UNIQUE NOT NULL`,
`phone` and `company` are nullable TEXT columns, `created_at` is the
insertion timestamp (modelled as a Nat tick; its value is irrelevant to the
behaviour, only its preservation matters). -/
structure Contact where
  id : Nat
  name : String
  email : String
  phone : Option String
  company : Option String
  created_at : Nat
deriving DecidableEq

/-- The database state: the rows of the `contacts` table (in insertion
order, as SQLite stores them) together with the AUTOINCREMENT counter, which
is never reused even after deletes. -/
structure Store where
  contacts : List Contact
  nextId : Nat
deriving DecidableEq

/-- `init_db` creates an empty table; AUTOINCREMENT rowids start at 1. -/
def init_store : Store := { contacts := [], nextId := 1 }

/-- The validated request body `ContactBase` (= `ContactCreate` =
`ContactUpdate` in src/main.py).  pydantic's
`constr(min_length=1, strip_whitespace=True)` and `EmailStr` run before the
handlers, so a handler only ever sees payloads satisfying
`ContactBase.valid` below. -/
structure ContactBase where
  name : String
  email : String
  phone : Option String
  company : Option String
deriving DecidableEq

/-- What pydantic guarantees about a payload that reaches a handler: the
name has been whitespace-stripped (no leading or trailing whitespace
remains) and is non-empty (`constr(min_length=1, strip_whitespace=True)`).
`EmailStr` syntax checking is abstracted away: no claim depends on more
than byte equality of emails. -/
def ContactBase.valid (p : ContactBase) : Prop :=
  p.name ≠ ""
    ∧ p.name.data.head?.all (fun c => !c.isWhitespace) = true
    ∧ p.name.data.getLast?.all (fun c => !c.isWhitespace) = true

/-- The three error kinds of the service, as surfaced by `HTTPException`
(422 is raised by FastAPI validation before a handler body runs). -/
inductive ApiError where
  | invalidParameter
  | notFound
  | conflict
deriving DecidableEq

/-- HTTP status code of each error kind. -/
def ApiError.status : ApiError → Nat
  | .invalidParameter => 422
  | .notFound => 404
  | .conflict => 409

/-- `POST /contacts` (`create_contact`): the INSERT is attempted directly;
SQLite's UNIQUE constraint on `email` rejects it (sqlite3.IntegrityError)
exactly when some existing row has a byte-identical email, which the handler
translates to 409.  On success the inserted row (re-SELECTed by the source;
equal to the row built here) is returned and the AUTOINCREMENT counter
advances. -/
def create_contact (s : Store) (p : ContactBase) (now : Nat) :
    Except ApiError Contact × Store :=
  if s.contacts.any (fun c => c.email == p.email) then
    (.error .conflict, s)
  else
    let c : Contact :=
      { id := s.nextId, name := p.name, email := p.email, phone := p.phone,
        company := p.company, created_at := now }
    (.ok c, { contacts := s.contacts ++ [c], nextId := s.nextId + 1 })

/-- `GET /contacts/{id}` (`get_contact`): `SELECT * WHERE id = ?` then 404
when no row matches. -/
def get_contact (s : Store) (id : Nat) : Except ApiError Contact :=
  match s.contacts.find? (fun c => c.id == id) with
  | none => .error .notFound
  | some c => .ok c

/-- The field overwrite performed by
`UPDATE contacts SET name=?, email=?, phone=?, company=? WHERE id=?`
on a single row: `id` and `created_at` are not in the SET list. -/
def applyPayload (p : ContactBase) (c : Contact) : Contact :=
  { c with name := p.name, email := p.email, phone := p.phone,
           company := p.company }

/-- One row as transformed by the UPDATE statement: rows whose `id` matches
are overwritten, all others are untouched. -/
def updRow (id : Nat) (p : ContactBase) (c : Contact) : Contact :=
  if c.id == id then applyPayload p c else c

/-- `PUT /contacts/{id}` (`update_contact`): fetch the row (404 when
absent); when the payload email differs from the stored one, run the
duplicate check `SELECT 1 FROM contacts WHERE email = ?` and answer 409 when
it finds a row; otherwise run the UPDATE and return the re-SELECTed row
(which is the overwritten row, so it is constructed directly here). -/
def update_contact (s : Store) (id : Nat) (p : ContactBase) :
    Except ApiError Contact × Store :=
  match s.contacts.find? (fun c => c.id == id) with
  | none => (.error .notFound, s)
  | some existing =>
    if p.email != existing.email
        && s.contacts.any (fun c => c.email == p.email) then
      (.error .conflict, s)
    else
      (.ok (applyPayload p existing),
       { s with contacts := s.contacts.map (updRow id p) })

/-- `DELETE /contacts/{id}` (`delete_contact`): existence probe
`SELECT 1 WHERE id = ?` (404 when it finds nothing) then
`DELETE FROM contacts WHERE id = ?`. -/
def delete_contact (s : Store) (id : Nat) : Except ApiError Unit × Store :=
  if s.contacts.any (fun c => c.id == id) then
    (.ok (), { s with contacts := s.contacts.filter (fun c => !(c.id == id)) })
  else
    (.error .notFound, s)

/-- SQLite's `LOWER` folds only the ASCII range; Lean's `Char.toLower` does
exactly the same, so a string's characters after `LOWER` are its characters
mapped through `Char.toLower`. -/
def lowerChars (s : String) : List Char :=
  s.data.map Char.toLower

/-- `startsWith s n`: the string `s` begins with `n` (both as character
lists). -/
def startsWith : List Char → List Char → Bool
  | _, [] => true
  | [], _ :: _ => false
  | c :: s, ch :: n => ch == c && startsWith s n

/-- `containsSub s n`: `n` occurs inside `s` as a contiguous substring. -/
def containsSub : List Char → List Char → Bool
  | [], n => startsWith [] n
  | c :: s, n => startsWith (c :: s) n || containsSub s n

/-- All suffixes of a character list, longest first (including the list
itself and `[]`). -/
def suffixes : List Char → List (List Char)
  | [] => [[]]
  | c :: s => (c :: s) :: suffixes s

/-- SQLite `LIKE` pattern matching (no ESCAPE clause): `%` matches any
sequence of characters, `_` matches exactly one character, anything else
matches itself.  Both sides of the `LIKE` in the source are `LOWER`ed, so
plain character equality is the correct residual comparison. -/
def likeMatch : List Char → List Char → Bool
  | [], s => s.isEmpty
  | p :: ps, s =>
    if p = '%' then
      (suffixes s).any (fun t => likeMatch ps t)
    else
      match s with
      | [] => false
      | c :: s' => (if p = '_' then true else p == c) && likeMatch ps s'

/-- The `LIKE` pattern the source builds: `LOWER('%' + search + '%')`. -/
def likePattern (q : String) : List Char :=
  '%' :: (lowerChars q ++ ['%'])

/-- The search condition of `get_contacts`:
`LOWER(name) LIKE LOWER(?) OR LOWER(email) LIKE LOWER(?)` with the
`%…%`-wrapped search string bound to both placeholders. -/
def searchHit (q : String) (c : Contact) : Bool :=
  likeMatch (likePattern q) (lowerChars c.name)
    || likeMatch (likePattern q) (lowerChars c.email)

/-- The company condition of `get_contacts`:
`LOWER(company) = LOWER(?)`.  When the stored `company` is NULL the SQL
comparison yields NULL, which `WHERE` treats as not matching. -/
def companyHit (f : String) (c : Contact) : Bool :=
  match c.company with
  | none => false
  | some comp => lowerChars comp == lowerChars f

/-- The dynamically assembled `WHERE` clause of `get_contacts`: starting
from `1=1`, a condition is ANDed on only when the corresponding query
parameter is truthy in Python (present and non-empty). -/
def rowMatches (company search : Option String) (c : Contact) : Bool :=
  (match company with
   | none => true
   | some f => if f = "" then true else companyHit f c)
  &&
  (match search with
   | none => true
   | some q => if q = "" then true else searchHit q c)

/-- The query parameters of `GET /contacts` after FastAPI has filled in the
defaults (`limit=10`, `offset=0`, `sort_by="id"`, `order="asc"`). -/
structure ListParams where
  company : Option String
  search : Option String
  limit : Int
  offset : Int
  sort_by : String
  order : String
deriving DecidableEq

/-- The FastAPI `Query` validation of `get_contacts`: `limit` must lie in
`[1, 50]`, `offset` must be ≥ 0, `sort_by` must fully match
`^(name|company|id)$` and `order` must fully match `^(asc|desc)$`.  Any
violation aborts the request with a 422 before the handler body runs. -/
def validParams (p : ListParams) : Bool :=
  decide (1 ≤ p.limit) && decide (p.limit ≤ 50) && decide (0 ≤ p.offset)
    && (p.sort_by == "name" || p.sort_by == "company" || p.sort_by == "id")
    && (p.order == "asc" || p.order == "desc")

/-- Ascending comparison used by `ORDER BY {sort_by}`: BINARY collation on
the TEXT columns (codepoint order), numeric order on `id`; SQL NULLs sort
before every value. -/
def contactLeAsc (sb : String) (a b : Contact) : Bool :=
  if sb == "name" then
    decide (a.name ≤ b.name)
  else if sb == "company" then
    match a.company, b.company with
    | none, _ => true
    | some _, none => false
    | some x, some y => decide (x ≤ y)
  else
    decide (a.id ≤ b.id)

/-- `ORDER BY {sort_by} {order}`: DESC is the reversal of the ASC
comparison. -/
def contactLe (sb ord : String) (a b : Contact) : Bool :=
  if ord == "desc" then contactLeAsc sb b a else contactLeAsc sb a b

/-- Insert into a sorted list, keeping it sorted under `le`. -/
def insertSorted (le : Contact → Contact → Bool) (c : Contact) :
    List Contact → List Contact
  | [] => [c]
  | d :: t => if le c d then c :: d :: t else d :: insertSorted le c t

/-- The `ORDER BY` of `get_contacts`: a sorted permutation of the matching
rows (SQLite leaves the relative order of equal keys unspecified, and no
claim depends on it; insertion sort realises one such permutation). -/
def sortRows (sb ord : String) (l : List Contact) : List Contact :=
  l.foldr (insertSorted (contactLe sb ord)) []

/-- The response body of `GET /contacts` (`ContactListResponse`). -/
structure ContactListResponse where
  data : List Contact
  count : Nat
  limit : Int
  offset : Int
deriving DecidableEq

/-- `GET /contacts` (`get_contacts`): after parameter validation, `count`
is `SELECT COUNT(*)` over the filter predicate alone, and `data` is the
same filtered set, sorted, then windowed by `LIMIT ? OFFSET ?` (OFFSET
skips first, LIMIT then caps the rows returned). -/
def get_contacts (s : Store) (p : ListParams) :
    Except ApiError ContactListResponse :=
  if validParams p then
    let matching := s.contacts.filter (rowMatches p.company p.search)
    let total := matching.length
    let sorted := sortRows p.sort_by p.order matching
    .ok { data := (sorted.drop p.offset.toNat).take p.limit.toNat,
          count := total, limit := p.limit, offset := p.offset }
  else
    .error .invalidParameter

/-- No two rows hold byte-identical emails — the property SQLite's
`email TEXT UNIQUE` enforces. -/
def emailsUnique (s : Store) : Prop :=
  (s.contacts.map (fun c => c.email)).Nodup

/-- No two rows hold the same id — the property of the INTEGER PRIMARY KEY. -/
def idsUnique (s : Store) : Prop :=
  (s.contacts.map (fun c => c.id)).Nodup

/-- Well-formedness every reachable store satisfies: ids are below the
AUTOINCREMENT counter and pairwise distinct. -/
def storeWf (s : Store) : Prop :=
  (∀ c ∈ s.contacts, c.id < s.nextId) ∧ idsUnique s

instance (s : Store) : Decidable (emailsUnique s) :=
  inferInstanceAs (Decidable (List.Nodup _))

instance (s : Store) : Decidable (idsUnique s) :=
  inferInstanceAs (Decidable (List.Nodup _))

instance (p : ContactBase) : Decidable p.valid :=
  inferInstanceAs (Decidable (_ ∧ _ ∧ _))

/-- Concrete row used to exercise the theorems on concrete inputs. -/
def aliceC : Contact :=
  { id := 1, name := "Alice", email := "alice@example.com", phone := none,
    company := some "Acme", created_at := 0 }

/-- Second concrete row. -/
def bobC : Contact :=
  { id := 2, name := "Bob", email := "bob@example.com", phone := some "555",
    company := none, created_at := 1 }

/-- A two-row store reachable by two successful creates. -/
def store2 : Store := { contacts := [aliceC, bobC], nextId := 3 }

/-- A valid concrete payload. -/
def payloadEve : ContactBase :=
  { name := "Eve", email := "alice@example.com", phone := none,
    company := none }

/-- A valid concrete payload reusing Alice's email with new details. -/
def payloadAlice2 : ContactBase :=
  { name := "Alice2", email := "alice@example.com", phone := some "1",
    company := some "Acme" }

/-- Default query parameters of `GET /contacts`, varied per theorem. -/
def params0 : ListParams :=
  { company := none, search := none, limit := 10, offset := 0,
    sort_by := "id", order := "asc" }

/-- A row whose name contains a character in place of the search pattern's
underscore; used to compare the source's LIKE semantics with the spec's
substring wording. -/
def carolC : Contact :=
  { id := 3, name := "xay", email := "carol@crm.io", phone := none,
    company := none, created_at := 2 }

/-- The company-filter semantics exactly as the spec words it: the stored
company equals the filter after case folding (a row with no company equals
no filter value).  This definition follows the spec's words, to be compared
with `companyHit`, which is translated from the source SQL. -/
def specCompanyMatches (f : String) (c : Contact) : Prop :=
  ∃ comp, c.company = some comp ∧ lowerChars comp = lowerChars f

/-- The search-filter semantics exactly as the claim words it: the search
string occurs case-insensitively as a contiguous substring of the name or
of the email.  This definition follows the spec's words, to be compared
with `searchHit`, which is translated from the source SQL (`LIKE`). -/
def specSearchMatches (q : String) (c : Contact) : Prop :=
  lowerChars q <:+: lowerChars c.name ∨ lowerChars q <:+: lowerChars c.email

/-! ## Helper lemmas -/

theorem updRow_id (uid : Nat) (p : ContactBase) (c : Contact) :
    (updRow uid p c).id = c.id := by
  unfold updRow applyPayload
  split <;> rfl

theorem updRow_of_ne (uid : Nat) (p : ContactBase) (c : Contact)
    (h : (c.id == uid) = false) : updRow uid p c = c := by
  unfold updRow
  rw [h]
  rfl

theorem any_email_eq_true {s : Store} {e : String}
    (h : ∃ c ∈ s.contacts, c.email = e) :
    (s.contacts.any fun c => c.email == e) = true := by
  obtain ⟨c, hc, he⟩ := h
  exact List.any_eq_true.mpr ⟨c, hc, by simp [he]⟩

/-! ## Claim theorems -/

/-- C5: creating a contact whose email is byte-identical to an existing
row's email fails with `Conflict` (HTTP 409) and leaves the store
untouched; moreover the create operation reports `Conflict` exactly when
the storage uniqueness constraint (some existing row with a byte-identical
email) is violated, which is the translation of the attempted INSERT's
IntegrityError. -/
theorem c5_create_duplicate_conflict (s : Store) (p : ContactBase) (now : Nat)
    (hp : p.valid) (hdup : ∃ c ∈ s.contacts, c.email = p.email) :
    create_contact s p now = (.error .conflict, s)
      ∧ ApiError.conflict.status = 409
      ∧ ∀ (s' : Store) (q : ContactBase) (t : Nat),
          ((create_contact s' q t).1 = .error .conflict
            ↔ ∃ c ∈ s'.contacts, c.email = q.email) := by
  refine ⟨?_, rfl, ?_⟩
  · unfold create_contact
    rw [if_pos (any_email_eq_true hdup)]
  · intro s' q t
    unfold create_contact
    split
    · next hany =>
      simp only [List.any_eq_true, beq_iff_eq] at hany
      simpa using hany
    · next hany =>
      simp only [List.any_eq_true, beq_iff_eq] at hany
      simpa using hany

theorem c5_witness :
    payloadEve.valid ∧ (∃ c ∈ store2.contacts, c.email = payloadEve.email)
      ∧ create_contact store2 payloadEve 7 = (.error .conflict, store2) :=
  ⟨by decide, by decide,
    (c5_create_duplicate_conflict store2 payloadEve 7 (by decide) (by decide)).1⟩

/-- C6: updating an existing contact with a payload whose email equals the
stored email succeeds — no self-conflict — and applies the payload's name,
phone and company while keeping the email, id and creation time. -/
theorem c6_update_unchanged_email_succeeds (s : Store) (uid : Nat)
    (p : ContactBase) (ex : Contact) (hp : p.valid)
    (hfind : s.contacts.find? (fun c => c.id == uid) = some ex)
    (hemail : p.email = ex.email) :
    (update_contact s uid p).1 = .ok (applyPayload p ex)
      ∧ (applyPayload p ex).name = p.name
      ∧ (applyPayload p ex).phone = p.phone
      ∧ (applyPayload p ex).company = p.company
      ∧ (applyPayload p ex).email = ex.email
      ∧ (applyPayload p ex).id = ex.id
      ∧ (applyPayload p ex).created_at = ex.created_at := by
  have hbne : (p.email != ex.email) = false := by simp [hemail]
  refine ⟨?_, rfl, rfl, rfl, by simp [applyPayload, hemail], rfl, rfl⟩
  unfold update_contact
  rw [hfind]
  simp [hbne]

theorem c6_witness :
    payloadAlice2.valid
      ∧ store2.contacts.find? (fun c => c.id == 1) = some aliceC
      ∧ payloadAlice2.email = aliceC.email
      ∧ (update_contact store2 1 payloadAlice2).1
          = .ok (applyPayload payloadAlice2 aliceC) :=
  ⟨by decide, rfl, rfl,
    (c6_update_unchanged_email_succeeds store2 1 payloadAlice2 aliceC
      (by decide) rfl rfl).1⟩

/-- C7: updating an existing contact to an email that differs from its
stored email and is already held by some (hence different) contact fails
with `Conflict` (HTTP 409) and returns the store completely unchanged — no
row, in particular not the target row, is modified. -/
theorem c7_update_email_conflict (s : Store) (uid : Nat) (p : ContactBase)
    (ex : Contact) (hp : p.valid)
    (hfind : s.contacts.find? (fun c => c.id == uid) = some ex)
    (hne : p.email ≠ ex.email)
    (hother : ∃ c ∈ s.contacts, c.email = p.email) :
    update_contact s uid p = (.error .conflict, s)
      ∧ ApiError.conflict.status = 409
      ∧ ∀ c ∈ s.contacts, c.email = p.email → c ≠ ex := by
  have hbne : (p.email != ex.email) = true := by simp [hne]
  refine ⟨?_, rfl, ?_⟩
  · unfold update_contact
    rw [hfind]
    simp [hbne, any_email_eq_true hother]
  · intro c _ hce h
    exact hne (by rw [← hce, h])

theorem c7_witness :
    payloadEve.valid
      ∧ store2.contacts.find? (fun c => c.id == 2) = some bobC
      ∧ payloadEve.email ≠ bobC.email
      ∧ (∃ c ∈ store2.contacts, c.email = payloadEve.email)
      ∧ update_contact store2 2 payloadEve = (.error .conflict, store2) :=
  ⟨by decide, rfl, by decide, by decide,
    (c7_update_email_conflict store2 2 payloadEve bobC (by decide) rfl
      (by decide) (by decide)).1⟩

/-- C8: a successful update overwrites exactly `name`, `email`, `phone`,
`company` of the row whose id was addressed, preserves that row's `id` and
`created_at`, and maps every other row to itself (the post-store is the
pointwise `updRow` image: rows whose id differs are untouched and still
present). -/
theorem c8_update_frame (s : Store) (uid : Nat) (p : ContactBase)
    (r : Contact) (s' : Store)
    (h : update_contact s uid p = (.ok r, s')) :
    ∃ ex, s.contacts.find? (fun c => c.id == uid) = some ex
      ∧ r = applyPayload p ex
      ∧ r.name = p.name ∧ r.email = p.email ∧ r.phone = p.phone
      ∧ r.company = p.company ∧ r.id = ex.id ∧ r.created_at = ex.created_at
      ∧ s'.contacts = s.contacts.map (updRow uid p)
      ∧ s'.nextId = s.nextId
      ∧ s'.contacts.find? (fun c => c.id == uid) = some r
      ∧ ∀ c ∈ s.contacts, (c.id == uid) = false → c ∈ s'.contacts := by
  unfold update_contact at h
  split at h
  · simp at h
  · next ex hfind =>
    split at h
    · simp at h
    · rw [Prod.mk.injEq] at h
      obtain ⟨hr, hs'⟩ := h
      rw [Except.ok.injEq] at hr
      refine ⟨ex, hfind, hr.symm, ?_, ?_, ?_, ?_, ?_, ?_, ?_, ?_, ?_, ?_⟩
      · rw [← hr]; rfl
      · rw [← hr]; rfl
      · rw [← hr]; rfl
      · rw [← hr]; rfl
      · rw [← hr]; rfl
      · rw [← hr]; rfl
      · rw [← hs']
      · rw [← hs']
      · rw [← hs']
        show (s.contacts.map (updRow uid p)).find? (fun c => c.id == uid)
          = some r
        rw [List.find?_map]
        have hpred : ((fun c : Contact => c.id == uid) ∘ updRow uid p)
            = fun c : Contact => c.id == uid := by
          funext c
          simp [Function.comp, updRow_id]
        rw [hpred, hfind]
        have hexid : (ex.id == uid) = true := by
          have hps := List.find?_some hfind
          exact hps
        show some (updRow uid p ex) = some r
        rw [← hr]
        unfold updRow
        rw [hexid]
        rfl
      · intro c hc hcid
        rw [← hs']
        exact List.mem_map.mpr ⟨c, hc, updRow_of_ne uid p c hcid⟩

theorem c8_witness :
    update_contact store2 1 payloadAlice2
        = (.ok (applyPayload payloadAlice2 aliceC),
           { contacts := [applyPayload payloadAlice2 aliceC, bobC],
             nextId := 3 })
      ∧ ∃ ex, store2.contacts.find? (fun c => c.id == 1) = some ex
          ∧ applyPayload payloadAlice2 aliceC = applyPayload payloadAlice2 ex
          ∧ bobC ∈ ({ contacts := [applyPayload payloadAlice2 aliceC, bobC],
                      nextId := 3 } : Store).contacts :=
  ⟨rfl,
   let h := c8_update_frame store2 1 payloadAlice2
     (applyPayload payloadAlice2 aliceC)
     { contacts := [applyPayload payloadAlice2 aliceC, bobC], nextId := 3 }
     rfl
   ⟨h.choose, h.choose_spec.1, h.choose_spec.2.1, by decide⟩⟩

/-- C9: deleting an id that no row holds fails with `NotFound` (HTTP 404)
and returns the store unchanged; and after any successful delete, deleting
the same id again fails with `NotFound` (against the resulting store,
which it also leaves unchanged) rather than succeeding. -/
theorem c9_delete_notFound (s : Store) (did : Nat) :
    ((∀ c ∈ s.contacts, c.id ≠ did) →
        delete_contact s did = (.error .notFound, s)
          ∧ ApiError.notFound.status = 404)
      ∧ ∀ s', delete_contact s did = (.ok (), s') →
          delete_contact s' did = (.error .notFound, s') := by
  constructor
  · intro hnone
    have hany : (s.contacts.any fun c => c.id == did) = false := by
      simp only [List.any_eq_false, beq_iff_eq]
      intro c hc
      simpa using hnone c hc
    exact ⟨by unfold delete_contact; rw [if_neg (by simp [hany])], rfl⟩
  · intro s' h
    unfold delete_contact at h
    split at h
    · rw [Prod.mk.injEq] at h
      have hs' := h.2
      have hany : (s'.contacts.any fun c => c.id == did) = false := by
        rw [← hs']
        simp only [List.any_eq_false, List.mem_filter]
        intro c hc
        have := hc.2
        simp only [Bool.not_eq_eq_eq_not, Bool.not_true] at this
        simp [this]
      unfold delete_contact
      rw [if_neg (by simp [hany])]
    · simp at h

theorem c9_witness :
    (∀ c ∈ store2.contacts, c.id ≠ 999999)
      ∧ delete_contact store2 999999 = (.error .notFound, store2)
      ∧ delete_contact store2 1 = (.ok (), { contacts := [bobC], nextId := 3 })
      ∧ delete_contact { contacts := [bobC], nextId := 3 } 1
          = (.error .notFound, { contacts := [bobC], nextId := 3 }) :=
  ⟨by decide,
   ((c9_delete_notFound store2 999999).1 (by decide)).1,
   rfl,
   (c9_delete_notFound store2 1).2 { contacts := [bobC], nextId := 3 } rfl⟩

/-- C3: a list request with `limit` outside `[1, 50]`, a negative `offset`,
a `sort_by` outside `{name, company, id}` or an `order` outside
`{asc, desc}` fails with `InvalidParameter` (HTTP 422).  The conclusion
holds for every store `s` and does not inspect it: validation rejects the
request before any query runs. -/
theorem c3_invalid_params_422 (s : Store) (p : ListParams)
    (h : p.limit < 1 ∨ 50 < p.limit ∨ p.offset < 0
        ∨ (p.sort_by ≠ "name" ∧ p.sort_by ≠ "company" ∧ p.sort_by ≠ "id")
        ∨ (p.order ≠ "asc" ∧ p.order ≠ "desc")) :
    get_contacts s p = .error .invalidParameter
      ∧ ApiError.invalidParameter.status = 422 := by
  have hv : validParams p = false := by
    simp only [validParams, Bool.and_eq_false_iff, Bool.or_eq_false_iff,
      decide_eq_false_iff_not, not_le, beq_eq_false_iff_ne]
    rcases h with h | h | h | ⟨h1, h2, h3⟩ | ⟨h1, h2⟩
    · exact Or.inl (Or.inl (Or.inl (Or.inl h)))
    · exact Or.inl (Or.inl (Or.inl (Or.inr h)))
    · exact Or.inl (Or.inl (Or.inr h))
    · exact Or.inl (Or.inr ⟨⟨h1, h2⟩, h3⟩)
    · exact Or.inr ⟨h1, h2⟩
  constructor
  · unfold get_contacts
    rw [if_neg (by simp [hv])]
  · rfl

theorem c3_witness :
    ((0 : Int) < 1 ∨ 50 < (0 : Int) ∨ (0 : Int) < 0
        ∨ (("id" : String) ≠ "name" ∧ ("id" : String) ≠ "company"
            ∧ ("id" : String) ≠ "id")
        ∨ (("asc" : String) ≠ "asc" ∧ ("asc" : String) ≠ "desc"))
      ∧ get_contacts store2
          { company := none, search := none, limit := 0, offset := 0,
            sort_by := "id", order := "asc" }
          = .error .invalidParameter :=
  ⟨by decide,
   (c3_invalid_params_422 store2
     { company := none, search := none, limit := 0, offset := 0,
       sort_by := "id", order := "asc" } (by decide)).1⟩

/-- C2: for every successful list request, `count` equals the number of
rows matching the company/search predicate conjunction — an expression in
which `limit` and `offset` do not occur, and which therefore coincides for
any two requests sharing the same filters — and the returned window holds
at most `limit` rows. -/
theorem c2_count_total_and_window (s : Store) (p : ListParams)
    (r : ContactListResponse) (h : get_contacts s p = .ok r) :
    r.count = (s.contacts.filter (rowMatches p.company p.search)).length
      ∧ r.data.length ≤ p.limit.toNat
      ∧ ∀ (p' : ListParams) (r' : ContactListResponse),
          p'.company = p.company → p'.search = p.search →
          get_contacts s p' = .ok r' → r'.count = r.count := by
  unfold get_contacts at h
  split at h
  · rw [Except.ok.injEq] at h
    refine ⟨by rw [← h], ?_, ?_⟩
    · rw [← h]
      exact List.length_take_le _ _
    · intro p' r' hco hse h'
      unfold get_contacts at h'
      split at h'
      · rw [Except.ok.injEq] at h'
        rw [← h, ← h']
        show (s.contacts.filter (rowMatches p'.company p'.search)).length
          = (s.contacts.filter (rowMatches p.company p.search)).length
        rw [hco, hse]
      · exact absurd h' (by simp)
  · exact absurd h (by simp)

theorem c2_witness :
    get_contacts store2
        { company := none, search := none, limit := 1, offset := 0,
          sort_by := "id", order := "asc" }
        = .ok { data := [aliceC], count := 2, limit := 1, offset := 0 }
      ∧ (2 : Nat) = (store2.contacts.filter (rowMatches none none)).length
      ∧ ([aliceC] : List Contact).length ≤ (1 : Int).toNat :=
  ⟨rfl,
   (c2_count_total_and_window store2
     { company := none, search := none, limit := 1, offset := 0,
       sort_by := "id", order := "asc" }
     { data := [aliceC], count := 2, limit := 1, offset := 0 } rfl).1,
   (c2_count_total_and_window store2
     { company := none, search := none, limit := 1, offset := 0,
       sort_by := "id", order := "asc" }
     { data := [aliceC], count := 2, limit := 1, offset := 0 } rfl).2.1⟩

/-- Responses of two list requests agree whenever the requests share
limit, offset, sorting and a pointwise-equal row predicate. -/
theorem get_contacts_congr (s : Store) (p₁ p₂ : ListParams)
    (hl : p₁.limit = p₂.limit) (ho : p₁.offset = p₂.offset)
    (hs : p₁.sort_by = p₂.sort_by) (hor : p₁.order = p₂.order)
    (hrow : ∀ c, rowMatches p₁.company p₁.search c
      = rowMatches p₂.company p₂.search c) :
    get_contacts s p₁ = get_contacts s p₂ := by
  obtain ⟨co₁, se₁, l₁, o₁, sb₁, or₁⟩ := p₁
  obtain ⟨co₂, se₂, l₂, o₂, sb₂, or₂⟩ := p₂
  simp only at hl ho hs hor
  subst hl ho hs hor
  have hf : s.contacts.filter (rowMatches co₁ se₁)
      = s.contacts.filter (rowMatches co₂ se₂) :=
    List.filter_congr (fun c _ => hrow c)
  simp only [get_contacts, validParams, hf]

/-- C10: supplying `company` or `search` as the empty string is observably
identical to omitting the filter: Python's truthiness test adds only
non-empty filter values to the WHERE clause. -/
theorem c10_empty_filter_noop (s : Store) (co se : Option String)
    (l o : Int) (sb ord : String) :
    get_contacts s
        { company := some "", search := se, limit := l, offset := o,
          sort_by := sb, order := ord }
      = get_contacts s
        { company := none, search := se, limit := l, offset := o,
          sort_by := sb, order := ord }
    ∧ get_contacts s
        { company := co, search := some "", limit := l, offset := o,
          sort_by := sb, order := ord }
      = get_contacts s
        { company := co, search := none, limit := l, offset := o,
          sort_by := sb, order := ord } := by
  constructor
  · exact get_contacts_congr s _ _ rfl rfl rfl rfl
      (fun c => by simp [rowMatches])
  · exact get_contacts_congr s _ _ rfl rfl rfl rfl
      (fun c => by simp [rowMatches])

/-- Overwriting the email of the rows holding a given id with a value no
row currently holds keeps the email column duplicate-free, provided ids are
pairwise distinct. -/
theorem nodup_emails_overwrite (l : List Contact) (uid : Nat) (e : String)
    (hids : (l.map fun c => c.id).Nodup)
    (hem : (l.map fun c => c.email).Nodup)
    (hfresh : ∀ c ∈ l, c.email ≠ e) :
    (l.map fun c => if c.id == uid then e else c.email).Nodup := by
  induction l with
  | nil => simp
  | cons c t ih =>
    simp only [List.map_cons, List.nodup_cons] at hids hem ⊢
    refine ⟨?_, ih hids.2 hem.2
      (fun d hd => hfresh d (List.mem_cons_of_mem _ hd))⟩
    intro hmem
    obtain ⟨d, hd, hde⟩ := List.mem_map.mp hmem
    cases hcid : (c.id == uid) with
    | false =>
      cases hdid : (d.id == uid) with
      | false =>
        simp [hcid, hdid] at hde
        exact hem.1 (List.mem_map.mpr ⟨d, hd, hde⟩)
      | true =>
        simp [hcid, hdid] at hde
        exact hfresh c (List.mem_cons_self _ _) hde.symm
    | true =>
      cases hdid : (d.id == uid) with
      | false =>
        simp [hcid, hdid] at hde
        exact hfresh d (List.mem_cons_of_mem _ hd) hde
      | true =>
        refine hids.1 (List.mem_map.mpr ⟨d, hd, ?_⟩)
        have h1 : d.id = uid := by simpa using hdid
        have h2 : c.id = uid := by simpa using hcid
        rw [h1, h2]

/-- A successful or failed create keeps the email column duplicate-free. -/
theorem create_snd_emailsUnique (s : Store) (p : ContactBase) (now : Nat)
    (hem : emailsUnique s) : emailsUnique (create_contact s p now).2 := by
  unfold create_contact
  split
  · exact hem
  · next hany =>
    simp only [Bool.not_eq_true, List.any_eq_false, beq_iff_eq] at hany
    unfold emailsUnique at hem ⊢
    simp only [List.map_append, List.map_cons, List.map_nil]
    rw [List.nodup_append]
    refine ⟨hem, List.nodup_singleton _, ?_⟩
    intro a ha hb
    simp only [List.mem_singleton] at hb
    subst hb
    obtain ⟨c, hc, hce⟩ := List.mem_map.mp ha
    exact hany c hc hce

/-- A successful or failed update keeps the email column duplicate-free
(ids pairwise distinct, as the PRIMARY KEY guarantees on reachable
stores). -/
theorem update_snd_emailsUnique (s : Store) (uid : Nat) (p : ContactBase)
    (hids : idsUnique s) (hem : emailsUnique s) :
    emailsUnique (update_contact s uid p).2 := by
  unfold update_contact
  split
  · exact hem
  · next ex hfind =>
    split
    · exact hem
    · next hcond =>
      have hex_mem : ex ∈ s.contacts := List.mem_of_find?_eq_some hfind
      have hexid : (ex.id == uid) = true := by
        have hps := List.find?_some hfind
        exact hps
      unfold emailsUnique
      show ((s.contacts.map (updRow uid p)).map fun c => c.email).Nodup
      rw [List.map_map]
      have hupd : ((fun c : Contact => c.email) ∘ updRow uid p)
          = fun c : Contact => if c.id == uid then p.email else c.email := by
        funext c
        unfold Function.comp updRow applyPayload
        by_cases h : (c.id == uid) = true <;> simp [h]
      rw [hupd]
      have hcond' : (p.email != ex.email
          && s.contacts.any fun c => c.email == p.email) = false :=
        Bool.eq_false_iff.mpr hcond
      rcases Bool.and_eq_false_iff.mp hcond' with hb | ha
      · have he : p.email = ex.email := by simpa using hb
        have hmc : s.contacts.map
              (fun c : Contact => if c.id == uid then p.email else c.email)
            = s.contacts.map (fun c : Contact => c.email) := by
          refine List.map_congr_left ?_
          intro c hc
          by_cases h : (c.id == uid) = true
          · have hceq : c = ex := by
              refine List.inj_on_of_nodup_map hids hc hex_mem ?_
              have h1 : c.id = uid := by simpa using h
              have h2 : ex.id = uid := by simpa using hexid
              rw [h1, h2]
            rw [if_pos h, he, hceq]
          · simp [h]
        rw [hmc]
        exact hem
      · have hfresh : ∀ c ∈ s.contacts, c.email ≠ p.email := by
          simpa only [List.any_eq_false, beq_iff_eq] using ha
        exact nodup_emails_overwrite s.contacts uid p.email hids hem hfresh

/-- A successful or failed delete keeps the email column duplicate-free. -/
theorem delete_snd_emailsUnique (s : Store) (did : Nat)
    (hem : emailsUnique s) : emailsUnique (delete_contact s did).2 := by
  unfold delete_contact
  split
  · unfold emailsUnique at hem ⊢
    exact List.Nodup.sublist
      (List.Sublist.map _ (List.filter_sublist s.contacts)) hem
  · exact hem

/-- C1: email uniqueness is an invariant of the store: from any state with
pairwise-distinct emails (and the pairwise-distinct ids the PRIMARY KEY
guarantees on every reachable state — see `storeWf_init` and
`storeWf_preserved`), the state after a create, update or delete — whether
the operation answers `.ok` or `.error` — again has pairwise-distinct
emails. -/
theorem c1_email_uniqueness_invariant (s : Store) (p : ContactBase)
    (now uid did : Nat) (hids : idsUnique s) (hem : emailsUnique s) :
    emailsUnique (create_contact s p now).2
      ∧ emailsUnique (update_contact s uid p).2
      ∧ emailsUnique (delete_contact s did).2 :=
  ⟨create_snd_emailsUnique s p now hem,
   update_snd_emailsUnique s uid p hids hem,
   delete_snd_emailsUnique s did hem⟩

theorem c1_witness :
    idsUnique store2 ∧ emailsUnique store2
      ∧ (emailsUnique (create_contact store2 payloadEve 7).2
          ∧ emailsUnique (update_contact store2 1 payloadEve).2
          ∧ emailsUnique (delete_contact store2 2).2) :=
  ⟨by decide, by decide,
   c1_email_uniqueness_invariant store2 payloadEve 7 1 2 (by decide)
     (by decide)⟩

/-- The empty store produced by `init_db` is well-formed. -/
theorem storeWf_init : storeWf init_store := by
  refine ⟨?_, ?_⟩
  · intro c hc
    simp [init_store] at hc
  · simp [idsUnique, init_store]

/-- Every operation preserves store well-formedness (ids below the
AUTOINCREMENT counter and pairwise distinct), whether it succeeds or
fails; with `storeWf_init` this shows every reachable store satisfies the
`idsUnique` hypothesis of `c1_email_uniqueness_invariant`. -/
theorem storeWf_preserved (s : Store) (p : ContactBase)
    (now uid did : Nat) (h : storeWf s) :
    storeWf (create_contact s p now).2 ∧ storeWf (update_contact s uid p).2
      ∧ storeWf (delete_contact s did).2 := by
  obtain ⟨hbound, hids⟩ := h
  refine ⟨?_, ?_, ?_⟩
  · unfold create_contact
    split
    · exact ⟨hbound, hids⟩
    · refine ⟨?_, ?_⟩
      · intro c hc
        simp only [List.mem_append, List.mem_singleton] at hc
        rcases hc with hc | hc
        · exact Nat.lt_succ_of_lt (hbound c hc)
        · subst hc
          exact Nat.lt_succ_self _
      · unfold idsUnique at hids ⊢
        simp only [List.map_append, List.map_cons, List.map_nil]
        rw [List.nodup_append]
        refine ⟨hids, List.nodup_singleton _, ?_⟩
        intro a ha hb
        simp only [List.mem_singleton] at hb
        subst hb
        obtain ⟨c, hc, hcid⟩ := List.mem_map.mp ha
        exact Nat.lt_irrefl _ (hcid ▸ hbound c hc)
  · unfold update_contact
    split
    · exact ⟨hbound, hids⟩
    · split
      · exact ⟨hbound, hids⟩
      · refine ⟨?_, ?_⟩
        · intro c hc
          obtain ⟨d, hd, hdc⟩ := List.mem_map.mp hc
          rw [← hdc]
          show (updRow uid p d).id < s.nextId
          rw [updRow_id]
          exact hbound d hd
        · unfold idsUnique
          show ((s.contacts.map (updRow uid p)).map fun c => c.id).Nodup
          rw [List.map_map]
          have hcomp : ((fun c : Contact => c.id) ∘ updRow uid p)
              = fun c : Contact => c.id := by
            funext c
            exact updRow_id uid p c
          rw [hcomp]
          exact hids
  · unfold delete_contact
    split
    · refine ⟨?_, ?_⟩
      · intro c hc
        exact hbound c (List.mem_of_mem_filter hc)
      · unfold idsUnique at hids ⊢
        exact List.Nodup.sublist
          (List.Sublist.map _ (List.filter_sublist s.contacts)) hids
    · exact ⟨hbound, hids⟩

/-! ## LIKE semantics -/

theorem nil_mem_suffixes (s : List Char) : [] ∈ suffixes s := by
  induction s with
  | nil => exact List.mem_singleton.mpr rfl
  | cons c t ih => exact List.mem_cons_of_mem _ ih

/-- A wildcard-free pattern followed by `%` matches exactly the strings
that start with the pattern. -/
theorem likeMatch_append_percent (n : List Char)
    (hn : ∀ ch ∈ n, ch ≠ '%' ∧ ch ≠ '_') :
    ∀ s, likeMatch (n ++ ['%']) s = startsWith s n := by
  induction n with
  | nil =>
    intro s
    have h1 : startsWith s [] = true := by cases s <;> rfl
    rw [h1]
    show (if ('%' : Char) = '%'
      then (suffixes s).any (fun t => likeMatch [] t) else _) = true
    rw [if_pos rfl]
    exact List.any_eq_true.mpr ⟨[], nil_mem_suffixes s, rfl⟩
  | cons ch n' ih =>
    intro s
    have hch := hn ch (List.mem_cons_self _ _)
    have hn' : ∀ c ∈ n', c ≠ '%' ∧ c ≠ '_' :=
      fun c hc => hn c (List.mem_cons_of_mem _ hc)
    cases s with
    | nil =>
      show (if ch = '%' then (suffixes ([] : List Char)).any _ else false)
        = startsWith [] (ch :: n')
      rw [if_neg hch.1]
      rfl
    | cons c s' =>
      show (if ch = '%' then _ else
          (if ch = '_' then true else ch == c) && likeMatch (n' ++ ['%']) s')
        = startsWith (c :: s') (ch :: n')
      rw [if_neg hch.1, if_neg hch.2, ih hn' s']
      rfl

theorem containsSub_eq_any (s n : List Char) :
    containsSub s n = (suffixes s).any (fun t => startsWith t n) := by
  induction s with
  | nil =>
    show startsWith [] n = (startsWith [] n || List.any [] _)
    rw [List.any_nil, Bool.or_false]
  | cons c s' ih =>
    show (startsWith (c :: s') n || containsSub s' n) = _
    rw [ih]
    rfl

/-- The full `%pattern%` LIKE query on a wildcard-free pattern is exactly
substring containment. -/
theorem likeMatch_wrap_eq_containsSub (n : List Char)
    (hn : ∀ ch ∈ n, ch ≠ '%' ∧ ch ≠ '_') (s : List Char) :
    likeMatch ('%' :: (n ++ ['%'])) s = containsSub s n := by
  show (if ('%' : Char) = '%'
    then (suffixes s).any (fun t => likeMatch (n ++ ['%']) t) else _) = _
  rw [if_pos rfl, containsSub_eq_any]
  rw [show (fun t => likeMatch (n ++ ['%']) t) = fun t => startsWith t n
    from funext (likeMatch_append_percent n hn)]

theorem startsWith_iff (n : List Char) :
    ∀ s, startsWith s n = true ↔ n <+: s := by
  induction n with
  | nil =>
    intro s
    have h1 : startsWith s [] = true := by cases s <;> rfl
    simp [h1, List.nil_prefix]
  | cons ch n' ih =>
    intro s
    cases s with
    | nil =>
      have h0 : startsWith [] (ch :: n') = false := rfl
      rw [h0]
      simp [ List.prefix_nil]
    | cons c s' =>
      show (ch == c && startsWith s' n') = true ↔ _
      rw [Bool.and_eq_true, beq_iff_eq, ih s']
      simp [ List.cons_prefix_cons]

theorem mem_suffixes_iff (t : List Char) :
    ∀ s, t ∈ suffixes s ↔ t <:+ s := by
  intro s
  induction s with
  | nil =>
    show t ∈ [[]] ↔ _
    simp [ List.suffix_nil]
  | cons c s' ih =>
    show t ∈ (c :: s') :: suffixes s' ↔ _
    rw [List.mem_cons, ih, List.suffix_cons_iff]

/-- `containsSub` decides list-infix containment: the computable substring
test used above agrees with Mathlib's substring relation. -/
theorem containsSub_iff (s n : List Char) :
    containsSub s n = true ↔ n <:+: s := by
  rw [containsSub_eq_any, List.any_eq_true, List.infix_iff_prefix_suffix]
  constructor
  · rintro ⟨t, ht, hst⟩
    exact ⟨t, (startsWith_iff n t).mp hst, (mem_suffixes_iff t s).mp ht⟩
  · rintro ⟨t, hpre, hsuf⟩
    exact ⟨t, (mem_suffixes_iff t s).mpr hsuf, (startsWith_iff n t).mpr hpre⟩

/-- C4 fails as stated: with the search string `x_y`, the source's filter
(SQL `LIKE '%x_y%'`, in which `_` is a single-character wildcard) matches
the contact named `xay`, yet `x_y` is not a substring of the contact's
name or email, so the filter does not match "exactly those contacts whose
name or email contains the search string as a substring". -/
theorem c4_counterexample :
    rowMatches none (some "x_y") carolC = true
      ∧ ¬ specSearchMatches "x_y" carolC := by
  constructor
  · rfl
  · unfold specSearchMatches
    rw [← containsSub_iff, ← containsSub_iff]
    decide

/-- C4 (amended): the filter predicate is the conjunction of the supplied
filters; a supplied non-empty `company` filter matches exactly the
contacts whose company equals it case-insensitively; a supplied non-empty
`search` filter whose lowering contains no SQL LIKE wildcard (`%` or `_`)
matches exactly the contacts whose name or email contains it
case-insensitively as a substring (for search strings with wildcards the
code follows LIKE pattern semantics instead); an omitted (or empty) filter
imposes no constraint. -/
theorem c4_filter_semantics (co se : Option String) (c : Contact)
    (hse : ∀ q, se = some q → ∀ ch ∈ lowerChars q, ch ≠ '%' ∧ ch ≠ '_') :
    rowMatches co se c = true ↔
      ((co = none ∨ co = some ""
          ∨ ∃ f, co = some f ∧ specCompanyMatches f c)
        ∧ (se = none ∨ se = some ""
          ∨ ∃ q, se = some q ∧ specSearchMatches q c)) := by
  unfold rowMatches
  rw [Bool.and_eq_true]
  apply and_congr
  · cases co with
    | none => simp
    | some f =>
      show (if f = "" then true else companyHit f c) = true ↔ _
      by_cases hf : f = ""
      · subst hf
        rw [if_pos rfl]
        simp
      · rw [if_neg hf]
        unfold companyHit specCompanyMatches
        cases hcc : c.company with
        | none => simp [hf]
        | some comp => simp [hf]
  · cases se with
    | none => simp
    | some q =>
      show (if q = "" then true else searchHit q c) = true ↔ _
      by_cases hq : q = ""
      · subst hq
        rw [if_pos rfl]
        simp
      · rw [if_neg hq]
        have hn := hse q rfl
        unfold searchHit specSearchMatches likePattern
        rw [likeMatch_wrap_eq_containsSub _ hn, likeMatch_wrap_eq_containsSub _ hn]
        rw [Bool.or_eq_true, containsSub_iff, containsSub_iff]
        simp [hq]

theorem c4_witness :
    (∀ q, (some "ali" : Option String) = some q →
        ∀ ch ∈ lowerChars q, ch ≠ '%' ∧ ch ≠ '_')
      ∧ (rowMatches (some "acme") (some "ali") aliceC = true ↔
          (((some "acme" : Option String) = none
              ∨ (some "acme" : Option String) = some ""
              ∨ ∃ f, (some "acme" : Option String) = some f
                  ∧ specCompanyMatches f aliceC)
            ∧ ((some "ali" : Option String) = none
              ∨ (some "ali" : Option String) = some ""
              ∨ ∃ q, (some "ali" : Option String) = some q
                  ∧ specSearchMatches q aliceC))) :=
  ⟨fun q hq => by
      injection hq with h
      subst h
      decide,
   c4_filter_semantics (some "acme") (some "ali") aliceC
     (fun q hq => by
       injection hq with h
       subst h
       decide)⟩

end Crm
